import Mathlib

/-!
# Verification of the ticket subsystem of the Flimando community bot

Shallow embedding of the ticket-system core: the per-guild configuration
store with deep-default merge (`src/Extensions/Ticket.py`, class
`TicketConfig`), the ticket registry with ghost cleanup and rate limiting
(`src/functions.py`), the persistent-view restoration procedure, the
category management flows and the participant-add input parser.

Python `dict`s are modelled as association lists in insertion order with
first-match lookup; Python guarantees the keys of a dict are pairwise
distinct, which appears below as `keysNodup` hypotheses.  JSON values are
modelled by the inductive `JVal`.
-/

/-- A JSON-like value, as produced by `json.load` and stored in the
per-guild config files.  Objects are association lists in insertion
order. -/
inductive JVal where
  | str (s : String)
  | num (n : Int)
  | bool (b : Bool)
  | null
  | arr (xs : List JVal)
  | obj (fields : List (String × JVal))

namespace AList

/-- Lookup `d[k]` of a Python dict modelled as an assoc list
(first match; Python keys are unique, so this is exact). -/
def alookup {κ α : Type} [DecidableEq κ] (l : List (κ × α)) (k : κ) : Option α :=
  (l.find? (fun p => p.1 = k)).map (fun p => p.2)

/-- Test `k in d` on a Python dict. -/
def containsKey {κ α : Type} [DecidableEq κ] (l : List (κ × α)) (k : κ) : Bool :=
  l.any (fun p => p.1 = k)

/-- Assignment `d[k] = v` on a Python dict: replaces the value in place
if the key is present (keeping its position), else appends at the end. -/
def setKey {κ α : Type} [DecidableEq κ] (l : List (κ × α)) (k : κ) (v : α) :
    List (κ × α) :=
  if containsKey l k then l.map (fun p => if p.1 = k then (k, v) else p)
  else l ++ [(k, v)]

/-- Deletion `del d[k]` on a Python dict. -/
def eraseKey {κ α : Type} [DecidableEq κ] (l : List (κ × α)) (k : κ) :
    List (κ × α) :=
  l.filter (fun p => p.1 ≠ k)

/-- The keys of a dict are pairwise distinct (always true of an actual
Python dict). -/
def keysNodup {κ α : Type} [DecidableEq κ] (l : List (κ × α)) : Bool :=
  (l.map Prod.fst).Nodup

end AList

open AList

/-- The loop of `TicketConfig._merge_config` (src/Extensions/Ticket.py:151-159):
`result = default.copy()`, then for each `(key, value)` of `loaded`, if
`key` is in `result` and both `result[key]` and `value` are dicts, merge
recursively, else `result[key] = value`.  The first argument is the
accumulating `result`, the second the remaining items of `loaded`. -/
def mergeFold : List (String × JVal) → List (String × JVal) → List (String × JVal)
  | result, [] => result
  | result, (k, JVal.obj lf) :: rest =>
    (match alookup result k with
     | some (JVal.obj rf) => mergeFold (setKey result k (JVal.obj (mergeFold rf lf))) rest
     | _ => mergeFold (setKey result k (JVal.obj lf)) rest)
  | result, (k, v) :: rest => mergeFold (setKey result k v) rest
termination_by _ l => sizeOf l
decreasing_by all_goals simp_wf <;> omega

/-- The full `TicketConfig._merge_config(default, loaded)`. -/
def merge_config (default loaded : List (String × JVal)) : List (String × JVal) :=
  mergeFold default loaded

/-- The merge of two values: recursive union when both are dicts,
otherwise the loaded value wins (the two arms of the `if` inside
`_merge_config`, lifted to a single value). -/
def mergeJ (dv lv : JVal) : JVal :=
  match dv, lv with
  | JVal.obj df, JVal.obj lf => JVal.obj (mergeFold df lf)
  | _, lv => lv

/-- One step of `_merge_config`ʼs loop, as a value transformer:
`combineStep (result[key]) value` is what gets stored at `key`. -/
def combineStep (o : Option JVal) (v : JVal) : JVal :=
  match o, v with
  | some (JVal.obj rf), JVal.obj lf => JVal.obj (mergeFold rf lf)
  | _, v => v

/-- Merge of an optional default value with a loaded value
(what the merged dict holds at a key of `loaded`). -/
def combineO (dv : JVal) (o : Option JVal) : JVal :=
  match o with
  | none => dv
  | some lv => mergeJ dv lv

/-! ## Compiled-in defaults (config.py COLORS, TicketConfig.DEFAULT_CONFIG) -/

/-- Value `COLORS["blue"]` (src/config.py). -/
def COLORS_blue : Int := 0x0099ff

/-- Value `COLORS["red"]` (src/config.py). -/
def COLORS_red : Int := 0xff0000

/-- Value `COLORS["green"]` (src/config.py). -/
def COLORS_green : Int := 0x00ff00

/-- The three built-in categories of `TicketConfig.DEFAULT_CONFIG`
(src/Extensions/Ticket.py:74-111). -/
def DEFAULT_CATEGORIES : List (String × JVal) :=
  [("support", JVal.obj
      [("name", JVal.str "🛠️ Support"),
       ("description", JVal.str "Allgemeine Hilfe und Support"),
       ("emoji", JVal.str "🛠️"),
       ("staff_ping", JVal.bool true),
       ("category_id", JVal.null),
       ("embed", JVal.obj
         [("title", JVal.str "Support Ticket"),
          ("description", JVal.str "Willkommen in deinem Support-Ticket!\nEin Teammitglied wird sich in Kürze melden."),
          ("color", JVal.num COLORS_blue)])]),
   ("bug", JVal.obj
      [("name", JVal.str "🐛 Bug Report"),
       ("description", JVal.str "Melde Bugs und Fehler"),
       ("emoji", JVal.str "🐛"),
       ("staff_ping", JVal.bool true),
       ("category_id", JVal.null),
       ("embed", JVal.obj
         [("title", JVal.str "Bug Report"),
          ("description", JVal.str "Danke für deinen Bug-Report!\nBitte beschreibe das Problem detailliert."),
          ("color", JVal.num COLORS_red)])]),
   ("feature", JVal.obj
      [("name", JVal.str "💡 Feature Request"),
       ("description", JVal.str "Schlage neue Features vor"),
       ("emoji", JVal.str "💡"),
       ("staff_ping", JVal.bool false),
       ("category_id", JVal.null),
       ("embed", JVal.obj
         [("title", JVal.str "Feature Request"),
          ("description", JVal.str "Danke für deinen Vorschlag!\nWir werden ihn prüfen."),
          ("color", JVal.num COLORS_green)])])]

/-- The dict `TicketConfig.DEFAULT_CONFIG` (src/Extensions/Ticket.py:67-128). -/
def DEFAULT_CONFIG : List (String × JVal) :=
  [("enabled", JVal.bool true),
   ("max_tickets_per_user", JVal.num 3),
   ("auto_close_time", JVal.num 24),
   ("staff_role_ids", JVal.arr []),
   ("log_channel_id", JVal.null),
   ("transcript_enabled", JVal.bool true),
   ("categories", JVal.obj DEFAULT_CATEGORIES),
   ("messages", JVal.obj
     [("panel_title", JVal.str "🎫 Ticket System"),
      ("panel_description", JVal.str "Wähle eine Kategorie um ein Ticket zu erstellen:"),
      ("panel_color", JVal.num COLORS_blue),
      ("max_tickets_reached", JVal.str "❌ Du hast bereits die maximale Anzahl an Tickets ({max}) erreicht!"),
      ("ticket_created", JVal.str "✅ Dein {category} Ticket wurde erstellt: {channel}"),
      ("no_permission", JVal.str "❌ Du hast keine Berechtigung für diese Aktion!"),
      ("not_a_ticket", JVal.str "❌ Dieser Channel ist kein Ticket!"),
      ("ticket_closed", JVal.str "🔒 Ticket wird geschlossen..."),
      ("user_added", JVal.str "✅ {user} wurde zum Ticket hinzugefügt!"),
      ("user_removed", JVal.str "✅ {user} wurde aus dem Ticket entfernt!"),
      ("add_user_instruction", JVal.str "📝 **Antworte auf diese Nachricht** mit den Usern die du hinzufügen möchtest:"),
      ("add_user_timeout", JVal.str "⏰ **Timeout!** Du hast zu lange gebraucht. Versuche es erneut."),
      ("add_user_no_input", JVal.str "❌ **Keine User angegeben!** Gib mindestens einen User an."),
      ("add_user_invalid", JVal.str "❌ **Keine gültigen User gefunden!** Verwende Mentions (@User) oder User-IDs (123456789).")])]

/-! ## The on-disk config record and `TicketConfig.load_config` -/

/-- The state of one guildʼs config file `data/ticket_configs/guild_<id>.json`:
missing, present but unparseable, or a parsed JSON object. -/
inductive StoredFile where
  | absent
  | malformed
  | valid (cfg : List (String × JVal))

/-- Method `TicketConfig.load_config` (src/Extensions/Ticket.py:136-149), with the
in-memory class-level default dict passed explicitly (it is
`DEFAULT_CONFIG` unless mutated, see `set_on_default_copy` below).
Returns the config handed to the caller together with the state of the
file afterwards: a missing or unparseable file is replaced by a dump of
the defaults (`save_config(self.DEFAULT_CONFIG)`), a parseable file is
left untouched and deep-merged over the defaults.  Every parse failure is
caught, so the function is total: it never raises to the caller. -/
def load_config (defaults : List (String × JVal)) (f : StoredFile) :
    List (String × JVal) × StoredFile :=
  match f with
  | StoredFile.absent => (defaults, StoredFile.valid defaults)
  | StoredFile.malformed => (defaults, StoredFile.valid defaults)
  | StoredFile.valid cfg => (merge_config defaults cfg, StoredFile.valid cfg)

/-- Method `TicketConfig.save_config` (src/Extensions/Ticket.py:161-191): dumps
the given in-memory config to the guildʼs file. -/
def save_config (cfg : List (String × JVal)) : StoredFile :=
  StoredFile.valid cfg

/-! ## The ticket registry (src/functions.py) and the transport -/

/-- One entry of `data["tickets"][guild_id][channel_id]`
(src/functions.py:425-439).  `ttype` is the JSON field `"Type"` (the
display name of the category at creation time), `created` the ISO
timestamp string. -/
structure Ticket where
  owner_id : Nat
  ttype : String
  created : String
  control_message_id : Option Nat
deriving DecidableEq, Repr

/-- Registry slice `data["tickets"][guild_id]`: channel id ↦ ticket record. -/
abbrev GuildTickets := List (Nat × Ticket)

/-- The map `data["tickets"]`: guild id ↦ per-guild registry.  The key itself is
always present (the database bootstrap in functions.py:89-102 creates
it). -/
abbrev TicketsDB := List (Nat × GuildTickets)

/-- Outcome of `channel.fetch_message(message_id)` on the transport:
success, `discord.NotFound`, or `discord.Forbidden`. -/
inductive FetchResult where
  | found
  | notFound
  | forbidden
deriving DecidableEq, Repr

/-- The chat transport as the subsystem sees it: `bot.get_guild`,
`guild.get_channel` and `channel.fetch_message`, all keyed by plain ids.
It is external, read-only state for the functions modelled here. -/
structure Transport where
  guildExists : Nat → Bool
  channelExists : Nat → Nat → Bool
  fetchMessage : Nat → Nat → Nat → FetchResult

/-- Function `cleanup_ghost_tickets(guild_id, bot)` (src/functions.py:477-502):
if the guild has a registry and the bot can resolve the guild, collect
the channel ids whose channel no longer resolves, delete each collected
entry, and return the new registry with the number of removed entries.
If the guild id is not in the registry, or `bot.get_guild` returns
`None`, nothing is touched and 0 is returned. -/
def cleanup_ghost_tickets (bot : Transport) (guild_id : Nat) (db : TicketsDB) :
    TicketsDB × Nat :=
  match alookup db guild_id with
  | none => (db, 0)
  | some gts =>
    if bot.guildExists guild_id then
      let tickets_to_remove :=
        gts.foldl (fun acc p =>
          if bot.channelExists guild_id p.1 then acc else acc ++ [p.1]) []
      let newGts := tickets_to_remove.foldl (fun cur cid => eraseKey cur cid) gts
      (setKey db guild_id newGts, tickets_to_remove.length)
    else (db, 0)

/-- Function `get_max_tickets_for_guild(guild_id)` (src/functions.py:520-534):
reads the guildʼs config file directly; a missing or unparseable file,
or a missing `max_tickets_per_user` key, falls back to 3.  (A stored
value of a non-numeric JSON shape would make the comparison in
`max_tickets` raise in the source; such states are outside this model
and mapped to the fallback.) -/
def get_max_tickets_for_guild (files : Nat → StoredFile) (guild_id : Nat) : Int :=
  match files guild_id with
  | StoredFile.valid cfg =>
    match alookup cfg "max_tickets_per_user" with
    | some (JVal.num n) => n
    | some _ => 3
    | none => 3
  | _ => 3

/-- Function `max_tickets(user_id, guild_id, bot)` (src/functions.py:504-518),
the rate limiter (`RateLimiter.canOpen` of the spec).  The subsystemʼs
only call site (src/Extensions/Ticket.py:318) always passes the bot, so
the ghost cleanup in the guard is always reached; the optional-`bot`
short-circuit of the source is therefore not modelled.  Returns the
registry after the embedded ghost sweep together with the boolean
verdict. -/
def max_tickets (bot : Transport) (files : Nat → StoredFile) (db : TicketsDB)
    (user_id guild_id : Nat) : TicketsDB × Bool :=
  match alookup db guild_id with
  | none => (db, true)
  | some _ =>
    let max_allowed := get_max_tickets_for_guild files guild_id
    let db' := (cleanup_ghost_tickets bot guild_id db).1
    let count : Int :=
      ((alookup db' guild_id).getD []).foldl
        (fun acc p => if p.2.owner_id = user_id then acc + 1 else acc) 0
    (db', decide (count < max_allowed))

/-- Number of registry entries of `guild_id` owned by `user_id` (the
countable reading of the specʼs "counts entries owned by userId"). -/
def countOwned (db : TicketsDB) (guild_id user_id : Nat) : Nat :=
  ((alookup db guild_id).getD []).countP (fun p => p.2.owner_id = user_id)

/-! ## Persistent-view restoration (src/Extensions/Ticket.py:1897-2020) -/

/-- One entry of `data/ticket_panels.json`: the panel message reference
of a guild (`PanelManager.add_panel`, src/Extensions/Ticket.py:258-264). -/
structure Panel where
  channel_id : Nat
  message_id : Nat
deriving DecidableEq, Repr

/-- The registry state the restoration procedure reads and mutates:
the panel index and the ticket registry. -/
structure RestoreState where
  panels : List (Nat × Panel)
  tickets : TicketsDB
deriving DecidableEq, Repr

/-- Phase 1 of `restore_persistent_views`: walk the stored panels in
order.  A panel whose guild or channel does not resolve, or whose
message fetch is forbidden, is kept (only a failure counter moves).  A
`discord.NotFound` on the message fetch calls
`panel_manager.remove_panel`, which deletes the entry from the very dict
the loop is iterating — CPythonʼs next iteration step then raises
`RuntimeError: dictionary changed size during iteration`, which no
handler inside the loop catches.  This is modelled by the `true` abort
flag: the removed panel is gone, all remaining panels stay unprocessed,
and the caller skips phase 2. -/
def restorePanelPhase (t : Transport) :
    List (Nat × Panel) → List (Nat × Panel) × Bool
  | [] => ([], false)
  | (g, p) :: rest =>
    if !t.guildExists g then
      let r := restorePanelPhase t rest
      ((g, p) :: r.1, r.2)
    else if !t.channelExists g p.channel_id then
      let r := restorePanelPhase t rest
      ((g, p) :: r.1, r.2)
    else
      match t.fetchMessage g p.channel_id p.message_id with
      | FetchResult.notFound => (rest, true)
      | _ =>
        let r := restorePanelPhase t rest
        ((g, p) :: r.1, r.2)

/-- Phase 2 of `restore_persistent_views`, per ticket: a ticket without a
truthy `control_message_id` is skipped (`if not control_message_id`, so
`None` and `0` alike); an unresolvable channel or a forbidden fetch
leaves the record alone; a `discord.NotFound` on the control message
calls `add_control_message_to_ticket(channel_id, guild_id, None)`,
clearing the reference.  The value mutation does not resize any dict,
so this loop has no abort. -/
def restoreTicket (t : Transport) (g c : Nat) (tk : Ticket) : Ticket :=
  match tk.control_message_id with
  | none => tk
  | some m =>
    if m = 0 then tk
    else if !t.channelExists g c then tk
    else
      match t.fetchMessage g c m with
      | FetchResult.notFound => { tk with control_message_id := none }
      | _ => tk

/-- Phase 2 over the whole registry: guilds that do not resolve are
skipped whole. -/
def restoreTicketPhase (t : Transport) (db : TicketsDB) : TicketsDB :=
  db.map (fun gp =>
    if t.guildExists gp.1 then
      (gp.1, gp.2.map (fun cp => (cp.1, restoreTicket t gp.1 cp.1 cp.2)))
    else gp)

/-- Procedure `Ticket.restore_persistent_views` (src/Extensions/Ticket.py:1897-2020)
as a state transformer: phase 1 over the panel index; if it aborted
(see `restorePanelPhase`), the top-level exception handler swallows the
`RuntimeError` and the ticket phase never runs. -/
def restore_persistent_views (t : Transport) (s : RestoreState) : RestoreState :=
  let pr := restorePanelPhase t s.panels
  if pr.2 then { panels := pr.1, tickets := s.tickets }
  else { panels := pr.1, tickets := restoreTicketPhase t s.tickets }

/-! ## Category management (src/Extensions/Ticket.py) -/

/-- User-visible outcome of the category-add flow
(`Ticket.add_category` gate + `CategoryCreateModal.on_submit`). -/
inductive AddOutcome where
  | limitReached
  | invalidId
  | duplicate
  | created
deriving DecidableEq, Repr

/-- Python `str.strip()`: drop leading and trailing whitespace
(character-level model of the sourceʼs string handling). -/
def pyTrim (cs : List Char) : List Char :=
  ((cs.dropWhile Char.isWhitespace).reverse.dropWhile Char.isWhitespace).reverse

/-- Normalization `self.category_id.value.strip().lower().replace(' ', '_')`
(src/Extensions/Ticket.py:1472). -/
def normalize_cat_id (s : String) : String :=
  String.mk (((pyTrim s.data).map Char.toLower).map (fun c => if c = ' ' then '_' else c))

/-- Validation `cat_id.replace('_', '').isalnum()` (src/Extensions/Ticket.py:1478);
Python `isalnum` demands a nonempty string of alphanumerics (the model
uses ASCII alphanumerics). -/
def valid_cat_id (cid : String) : Bool :=
  let t := cid.data.filter (fun c => !(c = '_'))
  !t.isEmpty && t.all Char.isAlphanum

/-- The category object built by `CategoryCreateModal.on_submit`
(src/Extensions/Ticket.py:1496-1507). -/
def new_category (name description emoji : String) : JVal :=
  JVal.obj
    [("name", JVal.str name),
     ("description", JVal.str description),
     ("emoji", JVal.str emoji),
     ("staff_ping", JVal.bool true),
     ("category_id", JVal.null),
     ("embed", JVal.obj
       [("title", JVal.str (name ++ " Ticket")),
        ("description", JVal.str ("Willkommen in deinem " ++ name ++ " Ticket!\nEin Teammitglied wird sich in Kürze melden.")),
        ("color", JVal.num COLORS_blue)])]

/-- Modal handler `CategoryCreateModal.on_submit` (src/Extensions/Ticket.py:1471-1510)
acting on the categories map: normalize the id, reject a malformed id,
reject an id that is already a key, otherwise store the new category via
`config.set("categories.<id>", ...)`. -/
def category_create_submit (cats : List (String × JVal))
    (rawId name emoji description : String) : List (String × JVal) × AddOutcome :=
  let cid := normalize_cat_id rawId
  if !valid_cat_id cid then (cats, AddOutcome.invalidId)
  else if containsKey cats cid then (cats, AddOutcome.duplicate)
  else (setKey cats cid (new_category name.trim description.trim emoji.trim),
        AddOutcome.created)

/-- The whole category-add operation: the `/ticket-category-add` gate
(src/Extensions/Ticket.py:2159-2166) rejects when 25 categories exist
before the modal is even shown; otherwise the modal submit above runs. -/
def ticket_category_add (cats : List (String × JVal))
    (rawId name emoji description : String) : List (String × JVal) × AddOutcome :=
  if 25 ≤ cats.length then (cats, AddOutcome.limitReached)
  else category_create_submit cats rawId name emoji description

/-- User-visible outcome of the category-delete confirmation. -/
inductive DeleteOutcome where
  | notFound
  | deleted
  | missingOnDelete
deriving DecidableEq, Repr

/-- Python truthiness of a JSON value (`if not cat_data`). -/
def jFalsy : JVal → Bool
  | JVal.null => true
  | JVal.bool b => !b
  | JVal.num n => n = 0
  | JVal.str s => s = ""
  | JVal.arr xs => xs.isEmpty
  | JVal.obj fs => fs.isEmpty

/-- Button handler `ConfirmDeleteView.confirm_delete` (src/Extensions/Ticket.py:1767-1812)
acting on the categories map: `config.get("categories.<id>")` falsy →
"Kategorie nicht gefunden", no mutation; otherwise delete the id from a
copy and store the copy via `config.set("categories", ...)` (the inner
re-check mirrors the sourceʼs `if self.category_id in categories`). -/
def confirm_delete (cats : List (String × JVal)) (cid : String) :
    List (String × JVal) × DeleteOutcome :=
  match alookup cats cid with
  | none => (cats, DeleteOutcome.notFound)
  | some cd =>
    if jFalsy cd then (cats, DeleteOutcome.notFound)
    else if containsKey cats cid then (eraseKey cats cid, DeleteOutcome.deleted)
    else (cats, DeleteOutcome.missingOnDelete)

/-! ## Participant-add input parsing
(src/Extensions/Ticket.py:543-574, `TicketControlView._handle_user_add_response`) -/

/-- Pythonʼs `int(s)` on a whitespace-free token: optional sign followed
by at least one digit (digit-group underscores of Python literals are
not used by the inputs modelled here). -/
def digitsToNat? (cs : List Char) : Option Nat :=
  if !cs.isEmpty && cs.all Char.isDigit then
    some (cs.foldl (fun n c => n * 10 + (c.toNat - 48)) 0)
  else none

/-- Python `int(s)` on a token: optional sign then at least one digit. -/
def pyint? : List Char → Option Int
  | '-' :: rest => (digitsToNat? rest).map (fun n => -(n : Int))
  | '+' :: rest => (digitsToNat? rest).map (fun n => (n : Int))
  | cs => (digitsToNat? cs).map (fun n => (n : Int))

/-- A token shaped like a mention: `word.startswith("<@") and word.endswith(">")`. -/
def mentionShaped (w : List Char) : Bool :=
  w.take 2 = ['<', '@'] && w.getLast? = some '>'

/-- The interior `word[2:-1].replace('!', '')` of a mention token. -/
def mentionInner (w : List Char) : List Char :=
  ((w.drop 2).dropLast).filter (fun c => !(c = '!'))

/-- Classify one whitespace-separated token: a mention-shaped token is
forced through `int(...)` — a non-numeric interior (e.g. a role mention
`<@&123>`) raises `ValueError`, modelled as `Except.error`; a digit-only
token (`word.isdigit()`) yields its value; anything else contributes
nothing. -/
def parse_token (w : List Char) : Except Unit (Option Int) :=
  if mentionShaped w then
    match pyint? (mentionInner w) with
    | some n => Except.ok (some n)
    | none => Except.error ()
  else
    match digitsToNat? w with
    | some n => Except.ok (some (n : Int))
    | none => Except.ok none

/-- Splitting `user_input.split()`: whitespace-separated tokens, no empties
(runs of whitespace count as one separator). -/
def wordsAux : List Char → List Char → List (List Char)
  | [], acc => if acc.isEmpty then [] else [acc.reverse]
  | c :: cs, acc =>
    if c.isWhitespace then
      if acc.isEmpty then wordsAux cs [] else acc.reverse :: wordsAux cs []
    else wordsAux cs (c :: acc)

/-- The words of the reply, as `str.split()` produces them. -/
def splitWords (input : String) : List (List Char) :=
  wordsAux input.data []

/-- The loop body over the accumulated id list:
`if user_id and user_id not in user_ids: user_ids.append(user_id)`
(id 0 is falsy and dropped; first occurrence kept). -/
def pushId (ids : List Int) (o : Option Int) : List Int :=
  match o with
  | none => ids
  | some n => if n ≠ 0 && !ids.contains n then ids ++ [n] else ids

/-- The id-extraction loop of `_handle_user_add_response`
(src/Extensions/Ticket.py:552-567): fold over the tokens, short-circuit
on the first raising token (the exception propagates to the
handler-wide `except`). -/
def parse_user_ids (input : String) : Except Unit (List Int) :=
  (splitWords input).foldl
    (fun acc w =>
      match acc with
      | Except.error e => Except.error e
      | Except.ok ids =>
        match parse_token w with
        | Except.error e => Except.error e
        | Except.ok o => Except.ok (pushId ids o))
    (Except.ok [])

/-- Observable outcome of the participant-add reply handling: empty
reply, a crash of the whole operation (exception logged, nothing sent),
no valid ids, or the parsed id list. -/
inductive AddUsersOutcome where
  | noInput
  | crashed
  | invalidInput
  | parsed (ids : List Int)
deriving DecidableEq, Repr

/-- The parsing stage of `_handle_user_add_response`
(src/Extensions/Ticket.py:543-574): strip, bail out on an empty reply,
parse, bail out on an empty id list; a raising token aborts the
operation through the outer exception handler. -/
def handle_user_add (content : String) : AddUsersOutcome :=
  let input := pyTrim content.data
  if input.isEmpty then AddUsersOutcome.noInput
  else
    match parse_user_ids (String.mk input) with
    | Except.error _ => AddUsersOutcome.crashed
    | Except.ok [] => AddUsersOutcome.invalidInput
    | Except.ok ids => AddUsersOutcome.parsed ids

/-! ## Aliasing of the class-level default config
(src/Extensions/Ticket.py:130-149 and 204-230) -/

/-- Method `TicketConfig.set(key, value)` for a two-segment dotted path, on an
instance whose `self.config` is `DEFAULT_CONFIG.copy()` (which is what
`load_config` returns for a guild without a stored record).  The copy is
*shallow*: nested values are the very dict objects of the class-level
`DEFAULT_CONFIG`.  Navigating `config[k1]` therefore reaches the shared
dict, and the assignment `config[k2] = v` mutates it in place.  Result:
`some (class-level defaults afterwards, instance config afterwards)`;
`none` when `config[k1]` exists but is not a dict (the assignment raises
in the source).  When `k1` is absent, a fresh dict is created in the
copy only and the shared defaults stay untouched. -/
def set_on_default_copy (defaults : List (String × JVal)) (k1 k2 : String)
    (v : JVal) : Option (List (String × JVal) × List (String × JVal)) :=
  match alookup defaults k1 with
  | some (JVal.obj sub) =>
    let sub' := setKey sub k2 v
    some (setKey defaults k1 (JVal.obj sub'), setKey defaults k1 (JVal.obj sub'))
  | some _ => none
  | none => some (defaults, setKey defaults k1 (JVal.obj [(k2, v)]))

/-- The categories map of a config value. -/
def categoriesOf (cfg : List (String × JVal)) : List (String × JVal) :=
  match alookup cfg "categories" with
  | some (JVal.obj fs) => fs
  | _ => []

/-- The result of `_merge_config` in closed form (valid for unique keys):
the default entries in order, each key of `loaded` overriding or
recursively merging into its default, followed by the entries of
`loaded` whose key is new, in order. -/
def mergeNF (d l : List (String × JVal)) : List (String × JVal) :=
  d.map (fun p => (p.1, combineO p.2 (alookup l p.1)))
    ++ l.filter (fun q => !containsKey d q.1)

mutual

/-- A JSON value as Python would actually hold it: every object, at
every depth, has pairwise-distinct keys. -/
def wfVal : JVal → Bool
  | JVal.obj fs => wfFields fs
  | _ => true

/-- Well-formedness of an object field list. -/
def wfFields : List (String × JVal) → Bool
  | [] => true
  | (k, v) :: rest => !containsKey rest k && wfVal v && wfFields rest

end

/-- Whether a JSON value is an object (a Python dict). -/
def JVal.isObj : JVal → Bool
  | JVal.obj _ => true
  | _ => false

/-- Spec-side value of one token of the participant-add reply: the id of
a mention-shaped token with numeric interior, the value of a digit-only
token, nothing otherwise. -/
def token_value (w : List Char) : Option Int :=
  if mentionShaped w then pyint? (mentionInner w)
  else (digitsToNat? w).map (fun n => (n : Int))

/-- All mention-shaped tokens of the reply have a numeric interior (the
condition under which the sourceʼs `int(...)` calls cannot raise). -/
def good_tokens (input : String) : Bool :=
  (splitWords input).all (fun w => !mentionShaped w || (pyint? (mentionInner w)).isSome)

/-- Spec-side deduplication: keep the first occurrence of each nonzero
id. -/
def dedup_positive (l : List Int) : List Int :=
  l.foldl (fun acc n => pushId acc (some n)) []

/-- A transport in which every guild, channel and message resolves. -/
def transportAllFound : Transport :=
  { guildExists := fun _ => true
    channelExists := fun _ _ => true
    fetchMessage := fun _ _ _ => FetchResult.found }

/-- A transport that cannot resolve any guild (the bot was removed). -/
def transportNoGuild : Transport :=
  { guildExists := fun _ => false
    channelExists := fun _ _ => false
    fetchMessage := fun _ _ _ => FetchResult.found }

/-- A transport in which only channel 10 exists. -/
def transportOnlyChannel10 : Transport :=
  { guildExists := fun _ => true
    channelExists := fun _ c => c = 10
    fetchMessage := fun _ _ _ => FetchResult.found }

/-- A transport in which guilds and channels resolve but every message
fetch reports `discord.NotFound`. -/
def transportMsgsGone : Transport :=
  { guildExists := fun _ => true
    channelExists := fun _ _ => true
    fetchMessage := fun _ _ _ => FetchResult.notFound }

/-- A registry ticket owned by `owner` with the default support label. -/
def sampleTicket (owner : Nat) : Ticket :=
  { owner_id := owner
    ttype := "🛠️ Support"
    created := "2025-01-01T00:00:00"
    control_message_id := none }

/-- A config-file store in which every guild stores
`max_tickets_per_user = n`. -/
def filesMax (n : Int) : Nat → StoredFile :=
  fun _ => StoredFile.valid [("max_tickets_per_user", JVal.num n)]

/-- The category used in the cross-guild aliasing scenario. -/
def leak_category : JVal := new_category "VIP" "VIP-Hilfe" "🎯"

/-- The class-level `DEFAULT_CONFIG` dict after one guild without a
stored record ran `set("categories.custom", leak_category)`: the shared
nested `categories` dict now carries the new key. -/
def defaults_after_leak : List (String × JVal) :=
  setKey DEFAULT_CONFIG "categories"
    (JVal.obj (setKey DEFAULT_CATEGORIES "custom" leak_category))

/-- Twenty-five distinct categories (the Discord button limit). -/
def cats25 : List (String × JVal) :=
  (List.range 25).map (fun i => (String.mk ('c' :: (Nat.toDigits 10 i)), JVal.null))

/-! ## Association-list lemmas -/

namespace AList

variable {κ α : Type} [DecidableEq κ]

theorem alookup_nil (k : κ) : alookup ([] : List (κ × α)) k = none := rfl

theorem alookup_cons (p : κ × α) (l : List (κ × α)) (k : κ) :
    alookup (p :: l) k = if p.1 = k then some p.2 else alookup l k := by
  by_cases h : p.1 = k <;> simp [alookup, List.find?, h]

theorem containsKey_nil (k : κ) : containsKey ([] : List (κ × α)) k = false := rfl

theorem containsKey_cons (p : κ × α) (l : List (κ × α)) (k : κ) :
    containsKey (p :: l) k = (p.1 = k || containsKey l k) := by
  simp [containsKey]

theorem alookup_eq_none_of_not_contains {l : List (κ × α)} {k : κ}
    (h : containsKey l k = false) : alookup l k = none := by
  induction l with
  | nil => rfl
  | cons p rest ih =>
    rw [containsKey_cons] at h
    rw [alookup_cons]
    simp only [Bool.or_eq_false_iff] at h
    rw [if_neg (by simpa using h.1)]
    exact ih h.2

theorem contains_of_alookup_eq_some {l : List (κ × α)} {k : κ} {v : α}
    (h : alookup l k = some v) : containsKey l k = true := by
  by_contra hc
  rw [alookup_eq_none_of_not_contains (Bool.eq_false_iff.mpr hc)] at h
  cases h

theorem alookup_isSome_of_contains {l : List (κ × α)} {k : κ}
    (h : containsKey l k = true) : (alookup l k).isSome = true := by
  induction l with
  | nil => cases h
  | cons p rest ih =>
    rw [containsKey_cons] at h
    rw [alookup_cons]
    by_cases hp : p.1 = k
    · simp [hp]
    · simp only [if_neg hp]
      exact ih (by simpa [hp] using h)

end AList


namespace AList

variable {κ α : Type} [DecidableEq κ]

theorem alookup_replace_self {l : List (κ × α)} {k : κ} (v : α)
    (h : containsKey l k = true) :
    alookup (l.map (fun p => if p.1 = k then (k, v) else p)) k = some v := by
  induction l with
  | nil => cases h
  | cons p rest ih =>
    rw [containsKey_cons] at h
    by_cases hp : p.1 = k
    · simp [alookup_cons, hp]
    · simp only [List.map_cons, if_neg hp, alookup_cons, if_neg hp]
      exact ih (by simpa [hp] using h)

theorem alookup_replace_ne {l : List (κ × α)} {k k' : κ} (v : α) (h : k' ≠ k) :
    alookup (l.map (fun p => if p.1 = k then (k, v) else p)) k' = alookup l k' := by
  induction l with
  | nil => rfl
  | cons p rest ih =>
    by_cases hp : p.1 = k
    · simp only [List.map_cons, if_pos hp, alookup_cons]
      rw [if_neg (fun hk => h hk.symm), if_neg (by rw [hp]; exact fun hk => h hk.symm)]
      exact ih
    · simp only [List.map_cons, if_neg hp, alookup_cons]
      by_cases hpk : p.1 = k'
      · rw [if_pos hpk, if_pos hpk]
      · rw [if_neg hpk, if_neg hpk]
        exact ih

theorem alookup_append (a b : List (κ × α)) (k : κ) :
    alookup (a ++ b) k =
      match alookup a k with
      | some v => some v
      | none => alookup b k := by
  induction a with
  | nil => simp [alookup_nil]
  | cons p rest ih =>
    rw [List.cons_append, alookup_cons, alookup_cons]
    by_cases hp : p.1 = k
    · rw [if_pos hp, if_pos hp]
    · rw [if_neg hp, if_neg hp]
      exact ih

theorem alookup_setKey_self (l : List (κ × α)) (k : κ) (v : α) :
    alookup (setKey l k v) k = some v := by
  unfold setKey
  by_cases hc : containsKey l k
  · rw [if_pos hc]
    exact alookup_replace_self v hc
  · rw [if_neg hc, alookup_append,
      alookup_eq_none_of_not_contains (Bool.eq_false_iff.mpr hc)]
    simp [alookup_cons]

end AList

namespace AList

variable {κ α : Type} [DecidableEq κ]

theorem containsKey_eq_mem_keys (l : List (κ × α)) (k : κ) :
    containsKey l k = decide (k ∈ l.map Prod.fst) := by
  induction l with
  | nil => simp [containsKey_nil]
  | cons p rest ih =>
    rw [containsKey_cons, ih, List.map_cons]
    by_cases hp : p.1 = k
    · subst hp
      simp
    · have hk : ¬ k = p.1 := fun he => hp he.symm
      simp [hp, hk]

theorem alookup_setKey_ne (l : List (κ × α)) (k k' : κ) (v : α) (h : k' ≠ k) :
    alookup (setKey l k v) k' = alookup l k' := by
  unfold setKey
  by_cases hc : containsKey l k
  · rw [if_pos hc]
    exact alookup_replace_ne v h
  · rw [if_neg hc, alookup_append]
    match hv : alookup l k' with
    | some w => rfl
    | none =>
      rw [alookup_cons, if_neg (fun hk => h hk.symm), alookup_nil]

theorem keys_setKey (l : List (κ × α)) (k : κ) (v : α) :
    (setKey l k v).map Prod.fst
      = if containsKey l k then l.map Prod.fst else l.map Prod.fst ++ [k] := by
  unfold setKey
  by_cases hc : containsKey l k
  · rw [if_pos hc, if_pos hc, List.map_map]
    apply List.map_congr_left
    intro p _
    by_cases hp : p.1 = k <;> simp [hp]
  · rw [if_neg hc, if_neg hc]
    simp

theorem containsKey_setKey (l : List (κ × α)) (k k' : κ) (v : α) :
    containsKey (setKey l k v) k' = (containsKey l k' || decide (k = k')) := by
  rw [containsKey_eq_mem_keys, containsKey_eq_mem_keys, keys_setKey]
  by_cases hc : containsKey l k
  · rw [if_pos hc]
    by_cases hk : k = k'
    · subst hk
      rw [containsKey_eq_mem_keys] at hc
      simp at hc
      simp [hc]
    · simp [hk]
  · rw [if_neg hc]
    by_cases hk : k = k'
    · subst hk
      simp
    · have hk' : ¬ k' = k := fun he => hk he.symm
      simp [hk, hk']

theorem keysNodup_setKey {l : List (κ × α)} (k : κ) (v : α)
    (h : keysNodup l = true) : keysNodup (setKey l k v) = true := by
  simp only [keysNodup, decide_eq_true_eq] at h ⊢
  rw [keys_setKey]
  by_cases hc : containsKey l k
  · rw [if_pos hc]
    exact h
  · rw [if_neg hc]
    refine List.Nodup.append h (List.nodup_singleton k) ?_
    intro x hx hxk
    rw [List.mem_singleton] at hxk
    rw [containsKey_eq_mem_keys] at hc
    simp only [decide_eq_true_eq] at hc
    exact hc (hxk ▸ hx)

theorem alookup_of_mem_nodup {l : List (κ × α)} {p : κ × α}
    (hn : keysNodup l = true) (hm : p ∈ l) : alookup l p.1 = some p.2 := by
  induction l with
  | nil => cases hm
  | cons q rest ih =>
    simp only [keysNodup, List.map_cons, List.nodup_cons, decide_eq_true_eq] at hn
    rcases List.mem_cons.mp hm with h | h
    · subst h
      simp [alookup_cons]
    · rw [alookup_cons]
      have hq : ¬ q.1 = p.1 := by
        intro he
        exact hn.1 (he ▸ List.mem_map.mpr ⟨p, h, rfl⟩)
      rw [if_neg hq]
      exact ih (by simp [keysNodup, hn.2]) h

end AList

/-! ## Characterization of the deep merge -/

theorem combineStep_some (dv v : JVal) : combineStep (some dv) v = mergeJ dv v := by
  cases dv <;> cases v <;> rfl

theorem combineO_some (dv v : JVal) : combineO dv (some v) = mergeJ dv v := rfl

theorem mergeFold_nil (r : List (String × JVal)) : mergeFold r [] = r := by
  simp [mergeFold]

theorem mergeFold_cons (r : List (String × JVal)) (k : String) (v : JVal)
    (rest : List (String × JVal)) :
    mergeFold r ((k, v) :: rest)
      = mergeFold (setKey r k (combineStep (alookup r k) v)) rest := by
  cases v with
  | obj lf =>
    cases h : alookup r k with
    | none => simp [mergeFold, h, combineStep]
    | some w => cases w <;> simp [mergeFold, h, combineStep]
  | str s => simp [mergeFold, combineStep]
  | num n => simp [mergeFold, combineStep]
  | bool b => simp [mergeFold, combineStep]
  | null => simp [mergeFold, combineStep]
  | arr xs => simp [mergeFold, combineStep]

theorem mergeFold_eq_NF (l r : List (String × JVal))
    (hl : keysNodup l = true) (hr : keysNodup r = true) :
    mergeFold r l = mergeNF r l := by
  induction l generalizing r with
  | nil =>
    rw [mergeFold_nil]
    unfold mergeNF
    simp only [alookup_nil, List.filter_nil, List.append_nil, combineO]
    rw [List.map_congr_left (fun p _ => Prod.mk.eta)]
    exact (List.map_id' r).symm
  | cons q rest ih =>
    obtain ⟨k, v⟩ := q
    have hknotin : ∀ p, p ∈ rest → ¬ p.1 = k := by
      simp only [keysNodup, List.map_cons, List.nodup_cons, decide_eq_true_eq] at hl
      intro p hp he
      exact hl.1 (he ▸ List.mem_map.mpr ⟨p, hp, rfl⟩)
    have hrest : keysNodup rest = true := by
      simp only [keysNodup, List.map_cons, List.nodup_cons, decide_eq_true_eq] at hl
      simp [keysNodup, hl.2]
    rw [mergeFold_cons, ih _ hrest (keysNodup_setKey _ _ hr)]
    unfold mergeNF
    by_cases hc : containsKey r k
    · have hkeys : setKey r k (combineStep (alookup r k) v)
          = r.map (fun p => if p.1 = k then (k, combineStep (alookup r k) v) else p) := by
        unfold setKey
        rw [if_pos hc]
      rw [hkeys, List.map_map]
      congr 1
      · apply List.map_congr_left
        intro p hp
        by_cases hpk : p.1 = k
        · have hlook : alookup r k = some p.2 := by
            rw [← hpk]
            exact alookup_of_mem_nodup hr hp
          simp only [Function.comp, if_pos hpk]
          rw [hlook, combineStep_some]
          have : alookup ((k, v) :: rest) p.1 = some v := by
            rw [alookup_cons, if_pos hpk.symm]
          rw [this, combineO_some]
          have hrk : alookup rest k = none := by
            apply alookup_eq_none_of_not_contains
            rw [containsKey_eq_mem_keys]
            simp only [decide_eq_false_iff_not]
            intro hmem
            obtain ⟨p', hp', hpk'⟩ := List.mem_map.mp hmem
            exact hknotin p' hp' hpk'
          rw [hpk, hrk]
          rfl
        · simp only [Function.comp, if_neg hpk]
          have : alookup ((k, v) :: rest) p.1 = alookup rest p.1 := by
            rw [alookup_cons, if_neg (fun he => hpk he.symm)]
          rw [this]
      · rw [List.filter_cons]
        have hcb : (!containsKey r k) = false := by simp [hc]
        rw [hcb]
        simp only [Bool.false_eq_true, if_false]
        apply List.filter_congr
        intro q hq
        have hqk : ¬ k = q.1 := fun he => hknotin q hq he.symm
        rw [← hkeys, containsKey_setKey]
        simp [hqk]
    · have hptk : ∀ p, p ∈ r → ¬ p.1 = k := by
        intro p hp he
        apply hc
        rw [containsKey_eq_mem_keys]
        simp only [decide_eq_true_eq]
        exact he ▸ List.mem_map.mpr ⟨p, hp, rfl⟩
      have hlookr : alookup r k = none := alookup_eq_none_of_not_contains
        (Bool.eq_false_iff.mpr hc)
      have hset : setKey r k (combineStep (alookup r k) v) = r ++ [(k, v)] := by
        unfold setKey
        rw [if_neg hc, hlookr]
        rfl
      rw [hset, List.map_append]
      have hmap : r.map (fun p => (p.1, combineO p.2 (alookup rest p.1)))
          = r.map (fun p => (p.1, combineO p.2 (alookup ((k, v) :: rest) p.1))) := by
        apply List.map_congr_left
        intro p hp
        have : alookup ((k, v) :: rest) p.1 = alookup rest p.1 := by
          rw [alookup_cons, if_neg (fun he => (hptk p hp) he.symm)]
        rw [this]
      rw [hmap]
      have hsingle : ([(k, v)] : List (String × JVal)).map
          (fun p => (p.1, combineO p.2 (alookup rest p.1)))
          = [(k, v)] := by
        have hrk : alookup rest k = none := by
          apply alookup_eq_none_of_not_contains
          rw [containsKey_eq_mem_keys]
          simp only [decide_eq_false_iff_not]
          intro hmem
          obtain ⟨p', hp', hpk'⟩ := List.mem_map.mp hmem
          exact hknotin p' hp' hpk'
        simp [hrk, combineO]
      rw [hsingle]
      rw [List.filter_cons]
      have hcb : (!containsKey r k) = true := by simp [hc]
      rw [hcb]
      simp only [if_true]
      have hfilter : rest.filter (fun q => !containsKey (r ++ [(k, v)]) q.1)
          = rest.filter (fun q => !containsKey r q.1) := by
        apply List.filter_congr
        intro q hq
        rw [← hset, containsKey_setKey]
        have hqk : ¬ k = q.1 := fun he => hknotin q hq he.symm
        simp [hqk]
      rw [hfilter]
      rw [List.append_assoc]
      rfl

namespace AList

variable {κ α β : Type} [DecidableEq κ]

theorem alookup_mapVals (f : κ → α → β) (l : List (κ × α)) (k : κ) :
    alookup (l.map (fun p => (p.1, f p.1 p.2))) k = (alookup l k).map (f k) := by
  induction l with
  | nil => rfl
  | cons p rest ih =>
    rw [List.map_cons, alookup_cons, alookup_cons]
    by_cases hp : p.1 = k
    · rw [if_pos hp, if_pos hp]
      rw [hp]
      rfl
    · rw [if_neg hp, if_neg hp]
      exact ih

theorem alookup_filter_keys (p : κ → Bool) (l : List (κ × α)) (k : κ) :
    alookup (l.filter (fun q => p q.1)) k
      = if p k then alookup l k else none := by
  induction l with
  | nil => simp [alookup_nil]
  | cons q rest ih =>
    rw [List.filter_cons]
    by_cases hq : p q.1 = true
    · rw [if_pos hq, alookup_cons, alookup_cons]
      by_cases hqk : q.1 = k
      · subst hqk
        rw [if_pos rfl, if_pos rfl, if_pos hq]
      · rw [if_neg hqk, if_neg hqk]
        exact ih
    · rw [if_neg hq, ih]
      by_cases hpk : p k = true
      · rw [if_pos hpk, if_pos hpk, alookup_cons]
        have hqk : ¬ q.1 = k := fun he => hq (he ▸ hpk)
        rw [if_neg hqk]
      · rw [if_neg hpk, if_neg hpk]

theorem not_contains_of_alookup_none {l : List (κ × α)} {k : κ}
    (h : alookup l k = none) : containsKey l k = false := by
  cases hc : containsKey l k
  · rfl
  · have hs := alookup_isSome_of_contains hc
    rw [h] at hs
    cases hs

end AList

/-- Lookup in the merged config, in terms of the two inputs: a key only
in the default keeps the default value, a key only in the loaded data
takes the loaded value, a key in both combines via `mergeJ` (recursive
merge iff both values are dicts, loaded wins otherwise). -/
theorem alookup_mergeFold (d l : List (String × JVal)) (k : String)
    (hl : keysNodup l = true) (hd : keysNodup d = true) :
    alookup (mergeFold d l) k =
      match alookup d k, alookup l k with
      | some dv, some lv => some (mergeJ dv lv)
      | some dv, none => some dv
      | none, r => r := by
  rw [mergeFold_eq_NF l d hl hd]
  unfold mergeNF
  rw [alookup_append, alookup_mapVals (fun k dv => combineO dv (alookup l k)) d k]
  cases hdk : alookup d k with
  | some dv =>
    cases hlk : alookup l k with
    | some lv => rfl
    | none => rfl
  | none =>
    rw [alookup_filter_keys (fun x => !containsKey d x) l k,
      not_contains_of_alookup_none hdk]
    cases hlk : alookup l k <;> rfl

/-! ## Well-formed JSON values and idempotence of the merge -/

theorem wfFields_keysNodup {l : List (String × JVal)}
    (h : wfFields l = true) : keysNodup l = true := by
  induction l with
  | nil => rfl
  | cons p rest ih =>
    obtain ⟨k, v⟩ := p
    rw [wfFields] at h
    simp only [Bool.and_eq_true] at h
    simp only [keysNodup, List.map_cons, List.nodup_cons, decide_eq_true_eq]
    constructor
    · intro hmem
      have hc : containsKey rest k = true := by
        rw [containsKey_eq_mem_keys]
        simpa using hmem
      rw [hc] at h
      simpa using h.1.1
    · have := ih h.2
      simpa [keysNodup] using this

theorem wfFields_cons {k : String} {v : JVal} {rest : List (String × JVal)}
    (h : wfFields ((k, v) :: rest) = true) :
    wfVal v = true ∧ wfFields rest = true := by
  rw [wfFields] at h
  simp only [Bool.and_eq_true] at h
  exact ⟨h.1.2, h.2⟩

theorem wfVal_of_mem {l : List (String × JVal)} {p : String × JVal}
    (h : wfFields l = true) (hm : p ∈ l) : wfVal p.2 = true := by
  induction l with
  | nil => cases hm
  | cons q rest ih =>
    obtain ⟨k, v⟩ := q
    rcases List.mem_cons.mp hm with he | he
    · subst he
      exact (wfFields_cons h).1
    · exact ih (wfFields_cons h).2 he

theorem wfVal_of_alookup {l : List (String × JVal)} {k : String} {v : JVal}
    (h : wfFields l = true) (hl : alookup l k = some v) : wfVal v = true := by
  induction l with
  | nil => cases hl
  | cons q rest ih =>
    rw [alookup_cons] at hl
    by_cases hq : q.1 = k
    · rw [if_pos hq] at hl
      cases hl
      obtain ⟨k', v'⟩ := q
      exact (wfFields_cons h).1
    · rw [if_neg hq] at hl
      obtain ⟨k', v'⟩ := q
      exact ih (wfFields_cons h).2 hl

theorem keysNodup_mergeFold {d l : List (String × JVal)}
    (hl : keysNodup l = true) (hd : keysNodup d = true) :
    keysNodup (mergeFold d l) = true := by
  rw [mergeFold_eq_NF l d hl hd]
  unfold mergeNF
  simp only [keysNodup, decide_eq_true_eq] at hd hl ⊢
  rw [List.map_append, List.map_map]
  have hdm : (d.map (Prod.fst ∘ fun p => (p.1, combineO p.2 (alookup l p.1))))
      = d.map Prod.fst := by
    apply List.map_congr_left
    intro p _
    rfl
  rw [hdm]
  refine List.Nodup.append hd ?_ ?_
  · exact ((List.filter_sublist l).map Prod.fst).nodup hl
  · intro x hx hxf
    obtain ⟨q, hq, hqx⟩ := List.mem_map.mp hxf
    have hqmem := List.mem_filter.mp hq
    have : containsKey d q.1 = false := by
      cases hcc : containsKey d q.1
      · rfl
      · rw [hcc] at hqmem
        simpa using hqmem.2
    rw [containsKey_eq_mem_keys] at this
    simp only [decide_eq_false_iff_not] at this
    exact this (hqx ▸ hx)

theorem merge_selfAux (n : Nat) :
    (∀ v : JVal, sizeOf v ≤ n → wfVal v = true → mergeJ v v = v)
    ∧ (∀ f : List (String × JVal), sizeOf f ≤ n → wfFields f = true →
        mergeFold f f = f) := by
  induction n using Nat.strong_induction_on with
  | _ n ih =>
    constructor
    · intro v hv hwf
      cases v with
      | obj fs =>
        have hlt : sizeOf fs < n := by
          have : sizeOf fs < sizeOf (JVal.obj fs) := by
            simp
          omega
        show JVal.obj (mergeFold fs fs) = JVal.obj fs
        rw [(ih (sizeOf fs) hlt).2 fs le_rfl (by rw [wfVal] at hwf; exact hwf)]
      | str s => rfl
      | num m => rfl
      | bool b => rfl
      | null => rfl
      | arr xs => rfl
    · intro f hf hwf
      have hnd := wfFields_keysNodup hwf
      rw [mergeFold_eq_NF f f hnd hnd]
      unfold mergeNF
      have hfilter : f.filter (fun q => !containsKey f q.1) = [] := by
        rw [List.filter_eq_nil_iff]
        intro q hq
        have : containsKey f q.1 = true := by
          simp only [containsKey, List.any_eq_true]
          exact ⟨q, hq, by simp⟩
        simp [this]
      rw [hfilter, List.append_nil]
      have hmap : f.map (fun p => (p.1, combineO p.2 (alookup f p.1)))
          = f.map (fun p => p) := by
        apply List.map_congr_left
        intro p hp
        rw [alookup_of_mem_nodup hnd hp, combineO_some]
        have hplt : sizeOf p.2 < n := by
          have h1 : sizeOf p < sizeOf f := List.sizeOf_lt_of_mem hp
          have h2 : sizeOf p.2 < sizeOf p := by
            obtain ⟨a, b⟩ := p
            simp
          omega
        rw [(ih (sizeOf p.2) hplt).1 p.2 le_rfl (wfVal_of_mem hwf hp)]
      rw [hmap]
      exact List.map_id' f

/-- Merging a well-formed value with itself is the identity. -/
theorem mergeJ_self (v : JVal) (h : wfVal v = true) : mergeJ v v = v :=
  (merge_selfAux (sizeOf v)).1 v le_rfl h

theorem merge_idemAux (n : Nat) :
    (∀ dv sv : JVal, sizeOf dv ≤ n → wfVal dv = true → wfVal sv = true →
        mergeJ dv (mergeJ dv sv) = mergeJ dv sv)
    ∧ (∀ d s : List (String × JVal), sizeOf d ≤ n → wfFields d = true →
        wfFields s = true → mergeFold d (mergeFold d s) = mergeFold d s) := by
  induction n using Nat.strong_induction_on with
  | _ n ih =>
    constructor
    · intro dv sv hdv hwfd hwfs
      cases dv with
      | obj df =>
        cases sv with
        | obj sf =>
          have hlt : sizeOf df < n := by
            have : sizeOf df < sizeOf (JVal.obj df) := by
              simp
            omega
          show JVal.obj (mergeFold df (mergeFold df sf)) = JVal.obj (mergeFold df sf)
          rw [(ih (sizeOf df) hlt).2 df sf le_rfl
            (by rw [wfVal] at hwfd; exact hwfd)
            (by rw [wfVal] at hwfs; exact hwfs)]
        | str s => rfl
        | num m => rfl
        | bool b => rfl
        | null => rfl
        | arr xs => rfl
      | str s => rfl
      | num m => rfl
      | bool b => rfl
      | null => rfl
      | arr xs => rfl
    · intro d s hd hwfd hwfs
      have hndd := wfFields_keysNodup hwfd
      have hnds := wfFields_keysNodup hwfs
      have hndm : keysNodup (mergeFold d s) = true := keysNodup_mergeFold hnds hndd
      rw [mergeFold_eq_NF (mergeFold d s) d hndm hndd]
      unfold mergeNF
      have hmap : d.map (fun p => (p.1, combineO p.2 (alookup (mergeFold d s) p.1)))
          = d.map (fun p => (p.1, combineO p.2 (alookup s p.1))) := by
        apply List.map_congr_left
        intro p hp
        have hdp : alookup d p.1 = some p.2 := alookup_of_mem_nodup hndd hp
        have hplt : sizeOf p.2 < n := by
          have h1 : sizeOf p < sizeOf d := List.sizeOf_lt_of_mem hp
          have h2 : sizeOf p.2 < sizeOf p := by
            obtain ⟨a, b⟩ := p
            simp
          omega
        rw [alookup_mergeFold d s p.1 hnds hndd, hdp]
        cases hsp : alookup s p.1 with
        | some sv =>
          rw [combineO_some, combineO_some,
            (ih (sizeOf p.2) hplt).1 p.2 sv le_rfl
              (wfVal_of_mem hwfd hp) (wfVal_of_alookup hwfs hsp)]
        | none =>
          rw [combineO_some]
          rw [mergeJ_self p.2 (wfVal_of_mem hwfd hp)]
          rfl
      rw [hmap]
      have hfilt : (mergeFold d s).filter (fun q => !containsKey d q.1)
          = s.filter (fun q => !containsKey d q.1) := by
        rw [mergeFold_eq_NF s d hnds hndd]
        unfold mergeNF
        rw [List.filter_append]
        have h1 : (d.map (fun p => (p.1, combineO p.2 (alookup s p.1)))).filter
            (fun q => !containsKey d q.1) = [] := by
          rw [List.filter_eq_nil_iff]
          intro q hq
          obtain ⟨p, hp, hpq⟩ := List.mem_map.mp hq
          have : containsKey d q.1 = true := by
            simp only [containsKey, List.any_eq_true]
            exact ⟨p, hp, by rw [← hpq]; simp⟩
          simp [this]
        rw [h1, List.nil_append]
        rw [List.filter_filter]
        apply List.filter_congr
        intro q hq
        simp
      rw [hfilt]
      rw [← mergeNF]
      exact (mergeFold_eq_NF s d hnds hndd).symm

/-- Re-merging the defaults over an already default-merged config is the
identity: `merge(D, merge(D, s)) = merge(D, s)` for well-formed inputs. -/
theorem merge_config_idem (d s : List (String × JVal))
    (hd : wfFields d = true) (hs : wfFields s = true) :
    merge_config d (merge_config d s) = merge_config d s :=
  (merge_idemAux (sizeOf d)).2 d s le_rfl hd hs

/-! ## Claim theorems: configuration store -/

theorem wf_DEFAULT_CONFIG : wfFields DEFAULT_CONFIG = true := rfl

/-- C1: for every default map and every loaded map (with the distinct
keys Python dicts guarantee), the configuration deep merge keeps the
default value at every key present only in the default, takes the
loaded value at every key of the loaded map unless both values there
are maps, and stores the recursive merge of the two sub-maps when they
are; since this holds for arbitrary pairs of maps and the recursion
reuses `merge_config`, it holds at every nesting depth, including
nested category sub-objects. -/
theorem C1_deep_merge_spec (default loaded : List (String × JVal)) (k : String)
    (hl : keysNodup loaded = true) (hd : keysNodup default = true) :
    (alookup (merge_config default loaded) k =
      match alookup default k, alookup loaded k with
      | some dv, some lv => some (mergeJ dv lv)
      | some dv, none => some dv
      | none, r => r)
    ∧ (∀ df lf, mergeJ (JVal.obj df) (JVal.obj lf) = JVal.obj (merge_config df lf))
    ∧ (∀ dv lv, dv.isObj = false ∨ lv.isObj = false → mergeJ dv lv = lv) := by
  refine ⟨alookup_mergeFold default loaded k hl hd, fun df lf => rfl, ?_⟩
  intro dv lv h
  cases dv <;> cases lv <;> first
    | rfl
    | (rcases h with h | h <;> simp [JVal.isObj] at h)

theorem C1_deep_merge_spec_witness :
    keysNodup [("m", JVal.obj [("x", JVal.num 9), ("y", JVal.num 3)]), ("b", JVal.num 7)] = true
    ∧ keysNodup [("a", JVal.num 1), ("m", JVal.obj [("x", JVal.num 2), ("z", JVal.num 5)])] = true
    ∧ alookup (merge_config
        [("a", JVal.num 1), ("m", JVal.obj [("x", JVal.num 2), ("z", JVal.num 5)])]
        [("m", JVal.obj [("x", JVal.num 9), ("y", JVal.num 3)]), ("b", JVal.num 7)]) "m"
      = some (JVal.obj [("x", JVal.num 9), ("z", JVal.num 5), ("y", JVal.num 3)]) := by
  refine ⟨rfl, rfl, ?_⟩
  have h := (C1_deep_merge_spec
    [("a", JVal.num 1), ("m", JVal.obj [("x", JVal.num 2), ("z", JVal.num 5)])]
    [("m", JVal.obj [("x", JVal.num 9), ("y", JVal.num 3)]), ("b", JVal.num 7)]
    "m" rfl rfl).1
  rw [h]
  simp [alookup, mergeJ, merge_config, mergeFold, setKey, containsKey]

/-- C5: configuration load never raises to the caller: a missing record
yields the compiled-in defaults and immediately persists them, a
malformed record is logged and replaced by the defaults as well, and a
parseable record is deep-merged over the defaults — `load_config` is a
total function covering all three file states. -/
theorem C5_load_never_fails :
    load_config DEFAULT_CONFIG StoredFile.absent
      = (DEFAULT_CONFIG, StoredFile.valid DEFAULT_CONFIG)
    ∧ load_config DEFAULT_CONFIG StoredFile.malformed
      = (DEFAULT_CONFIG, StoredFile.valid DEFAULT_CONFIG)
    ∧ (∀ cfg, load_config DEFAULT_CONFIG (StoredFile.valid cfg)
        = (merge_config DEFAULT_CONFIG cfg, StoredFile.valid cfg)) :=
  ⟨rfl, rfl, fun _ => rfl⟩

/-- C6: for every well-formed stored record, load (deep merge over the
defaults), then save of the loaded result, then load again yields an
identical category set — in fact the whole re-merged config is
identical, by idempotence of the default merge. -/
theorem C6_load_save_load_roundtrip (s : List (String × JVal))
    (hs : wfFields s = true) :
    categoriesOf ((load_config DEFAULT_CONFIG
        (save_config ((load_config DEFAULT_CONFIG (StoredFile.valid s)).1))).1)
      = categoriesOf ((load_config DEFAULT_CONFIG (StoredFile.valid s)).1) := by
  show categoriesOf (merge_config DEFAULT_CONFIG (merge_config DEFAULT_CONFIG s))
    = categoriesOf (merge_config DEFAULT_CONFIG s)
  rw [merge_config_idem DEFAULT_CONFIG s wf_DEFAULT_CONFIG hs]

theorem C6_load_save_load_roundtrip_witness :
    wfFields [("max_tickets_per_user", JVal.num 5),
      ("categories", JVal.obj [("support", JVal.obj [("name", JVal.str "Mein Support")])])] = true
    ∧ categoriesOf ((load_config DEFAULT_CONFIG
        (save_config ((load_config DEFAULT_CONFIG (StoredFile.valid
          [("max_tickets_per_user", JVal.num 5),
           ("categories", JVal.obj [("support", JVal.obj [("name", JVal.str "Mein Support")])])])).1))).1)
      = categoriesOf ((load_config DEFAULT_CONFIG (StoredFile.valid
          [("max_tickets_per_user", JVal.num 5),
           ("categories", JVal.obj [("support", JVal.obj [("name", JVal.str "Mein Support")])])])).1) :=
  ⟨rfl, C6_load_save_load_roundtrip _ rfl⟩

/-! ## Claim theorems: rate limiter and ghost sweep -/

theorem foldl_count_eq_countP (u : Nat) (l : GuildTickets) (acc : Int) :
    l.foldl (fun acc p => if p.2.owner_id = u then acc + 1 else acc) acc
      = acc + (l.countP (fun p => p.2.owner_id = u) : Int) := by
  induction l generalizing acc with
  | nil => simp
  | cons p rest ih =>
    rw [List.foldl_cons, ih, List.countP_cons]
    by_cases hp : p.2.owner_id = u
    · simp [hp]
      omega
    · simp [hp]

/-- C2 amended: whenever the community has a ticket-registry record,
`max_tickets` first runs the ghost sweep and then answers exactly
"owned count (after the sweep) < configured limit"; when the community
has no registry record, it answers `true` unconditionally, without
sweeping — even if the configured limit is ≤ 0. -/
theorem C2_rate_limit_spec (bot : Transport) (files : Nat → StoredFile)
    (db : TicketsDB) (user_id guild_id : Nat) :
    ((alookup db guild_id).isSome = true →
      max_tickets bot files db user_id guild_id
        = ((cleanup_ghost_tickets bot guild_id db).1,
           decide ((countOwned (cleanup_ghost_tickets bot guild_id db).1 guild_id user_id : Int)
             < get_max_tickets_for_guild files guild_id)))
    ∧ (alookup db guild_id = none →
        max_tickets bot files db user_id guild_id = (db, true)) := by
  constructor
  · intro h
    cases hdb : alookup db guild_id with
    | none => rw [hdb] at h; cases h
    | some gts =>
      have hstep : max_tickets bot files db user_id guild_id
          = ((cleanup_ghost_tickets bot guild_id db).1,
             decide (((alookup (cleanup_ghost_tickets bot guild_id db).1 guild_id).getD []).foldl
               (fun acc p => if p.2.owner_id = user_id then acc + 1 else acc) 0
               < get_max_tickets_for_guild files guild_id)) := by
        unfold max_tickets
        rw [hdb]
      rw [hstep, foldl_count_eq_countP]
      unfold countOwned
      norm_num
  · intro h
    unfold max_tickets
    rw [h]

theorem C2_rate_limit_spec_witness :
    (alookup ([(1, [(10, sampleTicket 7), (11, sampleTicket 7), (12, sampleTicket 7)])] : TicketsDB) 1).isSome = true
    ∧ (max_tickets transportAllFound (filesMax 3)
        [(1, [(10, sampleTicket 7), (11, sampleTicket 7), (12, sampleTicket 7)])] 7 1).2 = false
    ∧ (max_tickets transportAllFound (filesMax 3)
        [(1, [(10, sampleTicket 7), (11, sampleTicket 7)])] 7 1).2 = true := by
  refine ⟨rfl, ?_, ?_⟩
  · have h := (C2_rate_limit_spec transportAllFound (filesMax 3)
      [(1, [(10, sampleTicket 7), (11, sampleTicket 7), (12, sampleTicket 7)])] 7 1).1 rfl
    rw [h]
    rfl
  · have h := (C2_rate_limit_spec transportAllFound (filesMax 3)
      [(1, [(10, sampleTicket 7), (11, sampleTicket 7)])] 7 1).1 rfl
    rw [h]
    rfl

/-- C2 counterexample to the claim as stated: a community whose registry
has no record and whose stored limit is 0.  `canOpen` returns `true`,
but the user owns 0 entries and 0 < 0 is false, so "true iff owned
count < maxTicketsPerUser" fails (and no sweep runs on this path). -/
theorem C2_rate_limit_counterexample :
    (max_tickets transportAllFound (filesMax 0) [] 7 1).2 = true
    ∧ countOwned [] 1 7 = 0
    ∧ get_max_tickets_for_guild (filesMax 0) 1 = 0
    ∧ ¬((0 : Int) < 0) := ⟨rfl, rfl, rfl, by omega⟩

theorem contains_eq_decide_mem {κ : Type} [DecidableEq κ] (l : List κ) (a : κ) :
    l.contains a = decide (a ∈ l) := by
  induction l with
  | nil => simp
  | cons x xs ih =>
    by_cases hx : a = x <;> simp [hx, ih]

theorem mem_eq_of_keysNodup {κ α : Type} [DecidableEq κ]
    {l : List (κ × α)} {p q : κ × α} (hn : keysNodup l = true)
    (hp : p ∈ l) (hq : q ∈ l) (hk : p.1 = q.1) : p = q := by
  have h1 := alookup_of_mem_nodup hn hp
  have h2 := alookup_of_mem_nodup hn hq
  rw [hk, h2] at h1
  obtain ⟨a, b⟩ := p
  obtain ⟨c, d⟩ := q
  cases h1
  simp only at hk
  rw [hk]

theorem foldl_eraseKey_eq_filter {κ α : Type} [DecidableEq κ]
    (ids : List κ) (L : List (κ × α)) :
    ids.foldl (fun cur cid => eraseKey cur cid) L
      = L.filter (fun p => !ids.contains p.1) := by
  induction ids generalizing L with
  | nil => simp
  | cons i rest ih =>
    rw [List.foldl_cons, ih]
    unfold eraseKey
    rw [List.filter_filter]
    apply List.filter_congr
    intro p _
    by_cases h1 : p.1 = i <;> by_cases h2 : rest.contains p.1 <;>
      simp [h1, h2, List.contains_cons]

theorem foldl_collect_eq_filter_map (ch : Nat → Bool) (gts : GuildTickets)
    (acc : List Nat) :
    gts.foldl (fun acc p => if ch p.1 then acc else acc ++ [p.1]) acc
      = acc ++ (gts.filter (fun p => !ch p.1)).map Prod.fst := by
  induction gts generalizing acc with
  | nil => simp
  | cons p rest ih =>
    rw [List.foldl_cons, List.filter_cons]
    by_cases hp : ch p.1
    · rw [if_pos hp, ih]
      simp [hp]
    · rw [if_neg hp, ih]
      simp [hp]

/-- C3 amended: when the community itself resolves and it has a registry
record, the ghost sweep removes exactly the entries whose backing
channel does not resolve, leaves every other entry unchanged (the
result is precisely the filter of the registry), reports the number of
removed entries, and the surviving set does not depend on the order in
which entries are examined (a permuted registry sweeps to a permuted
result with the same count). -/
theorem C3_ghost_sweep_spec (bot : Transport) (guild_id : Nat) (db : TicketsDB)
    (gts : GuildTickets) (h : alookup db guild_id = some gts)
    (hg : bot.guildExists guild_id = true) (hn : keysNodup gts = true) :
    cleanup_ghost_tickets bot guild_id db
      = (setKey db guild_id (gts.filter (fun p => bot.channelExists guild_id p.1)),
         (gts.filter (fun p => !bot.channelExists guild_id p.1)).length)
    ∧ (∀ gts' : GuildTickets, gts.Perm gts' →
        (gts'.filter (fun p => bot.channelExists guild_id p.1)).Perm
          (gts.filter (fun p => bot.channelExists guild_id p.1))
        ∧ (gts'.filter (fun p => !bot.channelExists guild_id p.1)).length
            = (gts.filter (fun p => !bot.channelExists guild_id p.1)).length) := by
  constructor
  · have hstep : cleanup_ghost_tickets bot guild_id db
        = (setKey db guild_id
            ((gts.foldl (fun acc p =>
                if bot.channelExists guild_id p.1 then acc else acc ++ [p.1]) []).foldl
              (fun cur cid => eraseKey cur cid) gts),
           (gts.foldl (fun acc p =>
              if bot.channelExists guild_id p.1 then acc else acc ++ [p.1]) []).length) := by
      unfold cleanup_ghost_tickets
      rw [h]
      exact if_pos hg
    rw [hstep, foldl_collect_eq_filter_map, foldl_eraseKey_eq_filter]
    simp only [List.nil_append, List.length_map]
    have hfil : gts.filter (fun p =>
        !((gts.filter (fun p => !bot.channelExists guild_id p.1)).map Prod.fst).contains p.1)
        = gts.filter (fun p => bot.channelExists guild_id p.1) := by
      apply List.filter_congr
      intro p hp
      cases hch : bot.channelExists guild_id p.1
      · have hmem : p.1 ∈ (gts.filter (fun q => !bot.channelExists guild_id q.1)).map Prod.fst := by
          apply List.mem_map.mpr
          exact ⟨p, List.mem_filter.mpr ⟨hp, by simp [hch]⟩, rfl⟩
        rw [contains_eq_decide_mem]
        simp [hmem]
      · have hmem : ¬ p.1 ∈ (gts.filter (fun q => !bot.channelExists guild_id q.1)).map Prod.fst := by
          intro hmem
          obtain ⟨q, hq, hqk⟩ := List.mem_map.mp hmem
          have hq' := List.mem_filter.mp hq
          have : q = p := mem_eq_of_keysNodup hn hq'.1 hp hqk
          rw [this] at hq'
          rw [hch] at hq'
          simpa using hq'.2
        rw [contains_eq_decide_mem]
        simp [hmem]
    rw [hfil]
  · intro gts' hperm
    exact ⟨(hperm.symm.filter _), ((hperm.filter _).length_eq).symm⟩

theorem C3_ghost_sweep_spec_witness :
    alookup ([(1, [(10, sampleTicket 7), (11, sampleTicket 9)])] : TicketsDB) 1
      = some [(10, sampleTicket 7), (11, sampleTicket 9)]
    ∧ transportOnlyChannel10.guildExists 1 = true
    ∧ keysNodup [(10, sampleTicket 7), (11, sampleTicket 9)] = true
    ∧ cleanup_ghost_tickets transportOnlyChannel10 1
        [(1, [(10, sampleTicket 7), (11, sampleTicket 9)])]
      = ([(1, [(10, sampleTicket 7)])], 1) := by
  refine ⟨rfl, rfl, rfl, ?_⟩
  have hmain := (C3_ghost_sweep_spec transportOnlyChannel10 1
    [(1, [(10, sampleTicket 7), (11, sampleTicket 9)])]
    [(10, sampleTicket 7), (11, sampleTicket 9)] rfl rfl rfl).1
  rw [hmain]
  rfl

/-- C3 counterexample to the claim as stated: a community the transport
cannot resolve.  The registry entry at channel 100 is unresolvable
(neither the guild nor the channel resolves), yet the sweep removes
nothing and returns 0 removed, so "removes exactly the entries whose
backing channel cannot be resolved" fails. -/
theorem C3_ghost_sweep_counterexample :
    cleanup_ghost_tickets transportNoGuild 1 [(1, [(100, sampleTicket 7)])]
      = ([(1, [(100, sampleTicket 7)])], 0)
    ∧ transportNoGuild.guildExists 1 = false
    ∧ transportNoGuild.channelExists 1 100 = false := ⟨rfl, rfl, rfl⟩

/-! ## Claim theorems: persistent-view restoration -/

/-- C4, failing input for the claimed idempotence: two stored panels
whose messages are both gone, and a ticket whose control message is
gone.  The first `remove_panel` mutates the dict being iterated, so the
loopʼs next step raises and the top-level handler aborts the rest of the
restoration: one run removes only the first dead panel and never reaches
the ticket phase (the dead control-message reference survives), while a
second run removes the next dead panel — the end state of two runs
differs from one run, and one entryʼs failure changed how every later
entry was processed. -/
theorem C4_restore_not_idempotent :
    (restore_persistent_views transportMsgsGone
        { panels := [(1, { channel_id := 10, message_id := 100 }),
                     (2, { channel_id := 20, message_id := 200 })],
          tickets := [(1, [(5, { sampleTicket 7 with control_message_id := some 50 })])] }
      = { panels := [(2, { channel_id := 20, message_id := 200 })],
          tickets := [(1, [(5, { sampleTicket 7 with control_message_id := some 50 })])] })
    ∧ restore_persistent_views transportMsgsGone
        (restore_persistent_views transportMsgsGone
          { panels := [(1, { channel_id := 10, message_id := 100 }),
                       (2, { channel_id := 20, message_id := 200 })],
            tickets := [(1, [(5, { sampleTicket 7 with control_message_id := some 50 })])] })
      ≠ restore_persistent_views transportMsgsGone
          { panels := [(1, { channel_id := 10, message_id := 100 }),
                       (2, { channel_id := 20, message_id := 200 })],
            tickets := [(1, [(5, { sampleTicket 7 with control_message_id := some 50 })])] } := by
  constructor
  · rfl
  · decide

/-! ## Claim theorems: category management -/

theorem length_setKey {κ α : Type} [DecidableEq κ] (l : List (κ × α)) (k : κ) (v : α) :
    (setKey l k v).length
      = if containsKey l k then l.length else l.length + 1 := by
  unfold setKey
  by_cases hc : containsKey l k <;> simp [hc]

/-- C7: adding a category whose (normalized) id already exists is
rejected before any mutation — the categories map is returned unchanged
and the outcome is not `created`; and requesting removal of a category
id that is not present mutates nothing and reports `notFound`. -/
theorem C7_category_id_uniqueness (cats : List (String × JVal))
    (rawId name emoji description : String) (cid : String) :
    (containsKey cats (normalize_cat_id rawId) = true →
      (category_create_submit cats rawId name emoji description).1 = cats
      ∧ (category_create_submit cats rawId name emoji description).2 ≠ AddOutcome.created)
    ∧ (alookup cats cid = none →
        confirm_delete cats cid = (cats, DeleteOutcome.notFound)) := by
  constructor
  · intro h
    unfold category_create_submit
    by_cases hv : valid_cat_id (normalize_cat_id rawId)
    · simp only [hv, Bool.not_true, Bool.false_eq_true, if_false, h, if_true]
      exact ⟨trivial, fun hx => AddOutcome.noConfusion hx⟩
    · simp only [Bool.eq_false_iff.mpr hv, Bool.not_false, if_true]
      exact ⟨trivial, fun hx => AddOutcome.noConfusion hx⟩
  · intro h
    unfold confirm_delete
    rw [h]

theorem C7_category_id_uniqueness_witness :
    containsKey [("vip", JVal.obj [("name", JVal.str "VIP")])] (normalize_cat_id "VIP") = true
    ∧ alookup [("vip", JVal.obj [("name", JVal.str "VIP")])] "unknown" = none
    ∧ (category_create_submit [("vip", JVal.obj [("name", JVal.str "VIP")])]
         "VIP" "n" "e" "d").1 = [("vip", JVal.obj [("name", JVal.str "VIP")])]
    ∧ confirm_delete [("vip", JVal.obj [("name", JVal.str "VIP")])] "unknown"
        = ([("vip", JVal.obj [("name", JVal.str "VIP")])], DeleteOutcome.notFound) := by
  refine ⟨rfl, rfl, ?_, ?_⟩
  · exact ((C7_category_id_uniqueness [("vip", JVal.obj [("name", JVal.str "VIP")])]
      "VIP" "n" "e" "d" "unknown").1 rfl).1
  · exact (C7_category_id_uniqueness [("vip", JVal.obj [("name", JVal.str "VIP")])]
      "VIP" "n" "e" "d" "unknown").2 rfl

/-- C8: the category count never exceeds 25.  With 25 or more categories
the add command rejects before any mutation (the map is unchanged), and
every category-add operation preserves the bound `length ≤ 25`. -/
theorem C8_category_cap (cats : List (String × JVal))
    (rawId name emoji description : String) :
    (25 ≤ cats.length →
      ticket_category_add cats rawId name emoji description
        = (cats, AddOutcome.limitReached))
    ∧ (cats.length ≤ 25 →
        (ticket_category_add cats rawId name emoji description).1.length ≤ 25) := by
  constructor
  · intro h
    unfold ticket_category_add
    rw [if_pos h]
  · intro h
    unfold ticket_category_add
    by_cases h25 : 25 ≤ cats.length
    · rw [if_pos h25]
      exact h
    · rw [if_neg h25]
      unfold category_create_submit
      by_cases hv : valid_cat_id (normalize_cat_id rawId)
      · simp only [hv, Bool.not_true, Bool.false_eq_true, if_false]
        by_cases hc : containsKey cats (normalize_cat_id rawId)
        · rw [if_pos hc]
          exact h
        · rw [if_neg hc]
          simp only [length_setKey, Bool.eq_false_iff.mpr hc, Bool.false_eq_true, if_false]
          omega
      · simp only [Bool.eq_false_iff.mpr hv, Bool.not_false, if_true]
        exact h

theorem C8_category_cap_witness :
    25 ≤ cats25.length
    ∧ ticket_category_add cats25 "extra" "n" "e" "d" = (cats25, AddOutcome.limitReached) := by
  refine ⟨by decide, ?_⟩
  exact (C8_category_cap cats25 "extra" "n" "e" "d").1 (by decide)

/-! ## Claim theorems: participant-add parsing -/

theorem parse_token_good (w : List Char)
    (h : (!mentionShaped w || (pyint? (mentionInner w)).isSome) = true) :
    parse_token w = Except.ok (token_value w) := by
  unfold parse_token token_value
  by_cases hm : mentionShaped w
  · rw [if_pos hm, if_pos hm]
    cases hp : pyint? (mentionInner w) with
    | some n => rfl
    | none =>
      rw [hm, hp] at h
      cases h
  · rw [if_neg hm, if_neg hm]
    cases digitsToNat? w <;> rfl

theorem parse_token_bad (w : List Char)
    (h : (!mentionShaped w || (pyint? (mentionInner w)).isSome) = false) :
    parse_token w = Except.error () := by
  unfold parse_token
  simp only [Bool.or_eq_false_iff] at h
  have hm : mentionShaped w = true := by simpa using h.1
  have hnone : pyint? (mentionInner w) = none :=
    Option.not_isSome_iff_eq_none.mp (by rw [h.2]; exact Bool.false_ne_true)
  rw [if_pos hm, hnone]

theorem parse_fold_error (ws : List (List Char)) :
    ws.foldl
      (fun acc w =>
        match acc with
        | Except.error e => Except.error e
        | Except.ok ids =>
          match parse_token w with
          | Except.error e => Except.error e
          | Except.ok o => Except.ok (pushId ids o))
      (Except.error ()) = Except.error () := by
  induction ws with
  | nil => rfl
  | cons w rest ih => exact ih

theorem parse_fold_good (ws : List (List Char)) (acc : List Int)
    (h : ws.all (fun w => !mentionShaped w || (pyint? (mentionInner w)).isSome) = true) :
    ws.foldl
      (fun acc w =>
        match acc with
        | Except.error e => Except.error e
        | Except.ok ids =>
          match parse_token w with
          | Except.error e => Except.error e
          | Except.ok o => Except.ok (pushId ids o))
      (Except.ok acc)
      = Except.ok (ws.foldl (fun a w => pushId a (token_value w)) acc) := by
  induction ws generalizing acc with
  | nil => rfl
  | cons w rest ih =>
    rw [List.all_cons, Bool.and_eq_true] at h
    rw [List.foldl_cons, List.foldl_cons, parse_token_good w h.1]
    exact ih _ h.2

theorem parse_fold_bad (ws : List (List Char)) (acc : List Int)
    (h : ws.all (fun w => !mentionShaped w || (pyint? (mentionInner w)).isSome) = false) :
    ws.foldl
      (fun acc w =>
        match acc with
        | Except.error e => Except.error e
        | Except.ok ids =>
          match parse_token w with
          | Except.error e => Except.error e
          | Except.ok o => Except.ok (pushId ids o))
      (Except.ok acc) = Except.error () := by
  induction ws generalizing acc with
  | nil => cases h
  | cons w rest ih =>
    rw [List.all_cons] at h
    by_cases hw : (!mentionShaped w || (pyint? (mentionInner w)).isSome) = true
    · rw [List.foldl_cons, parse_token_good w hw]
      exact ih _ (by rw [hw] at h; simpa using h)
    · rw [List.foldl_cons, parse_token_bad w (Bool.eq_false_iff.mpr hw)]
      exact parse_fold_error rest

theorem token_fold_filterMap (ws : List (List Char)) (acc : List Int) :
    ws.foldl (fun a w => pushId a (token_value w)) acc
      = (ws.filterMap token_value).foldl (fun a n => pushId a (some n)) acc := by
  induction ws generalizing acc with
  | nil => rfl
  | cons w rest ih =>
    rw [List.foldl_cons, List.filterMap_cons]
    cases hw : token_value w with
    | none =>
      rw [ih]
      rfl
    | some n =>
      rw [List.foldl_cons, ih]

/-- C9 amended: if every mention-shaped token (`<@...>` … `>`) of the
reply has a numeric interior after dropping `!`, parsing succeeds and
yields exactly the deduplicated id list of the mention and digit-only
tokens (first occurrence kept, id 0 dropped, all other token shapes
ignored); but if any mention-shaped token has a non-numeric interior,
the `int(...)` call raises and the whole operation aborts with an
error. -/
theorem C9_parse_user_ids_spec (input : String) :
    (good_tokens input = true →
      parse_user_ids input
        = Except.ok (dedup_positive ((splitWords input).filterMap token_value)))
    ∧ (good_tokens input = false →
        parse_user_ids input = Except.error ()) := by
  constructor
  · intro h
    unfold parse_user_ids
    rw [parse_fold_good (splitWords input) [] h, token_fold_filterMap]
    rfl
  · intro h
    unfold parse_user_ids
    exact parse_fold_bad (splitWords input) [] h

theorem C9_parse_user_ids_spec_witness :
    good_tokens "abc <@5> 7 <@!5> 0 7" = true
    ∧ parse_user_ids "abc <@5> 7 <@!5> 0 7" = Except.ok [5, 7] := by
  refine ⟨rfl, ?_⟩
  have h := (C9_parse_user_ids_spec "abc <@5> 7 <@!5> 0 7").1 rfl
  rw [h]
  rfl

/-- C9 counterexample to the claim as stated: the reply
`"hi <@&123> 42"` contains the role mention `<@&123>`, a token that is
neither a user mention nor digit-only; instead of being ignored it makes
`int("&123")` raise, the parse aborts, and the whole operation crashes
(nothing, not even the valid id 42, is processed). -/
theorem C9_parse_counterexample :
    parse_user_ids "hi <@&123> 42" = Except.error ()
    ∧ handle_user_add "hi <@&123> 42" = AddUsersOutcome.crashed := ⟨rfl, rfl⟩

/-! ## Claim theorems: cross-guild aliasing of the defaults -/

/-- C10, failing scenario for the claimed isolation: guild A has no
stored record, loads the defaults (a shallow copy sharing every nested
dict with the class-level `DEFAULT_CONFIG`), and adds a category via
`set("categories.custom", ...)`.  The shared `categories` dict is
mutated in place, so the class-level defaults now carry the new key —
and guild B, also without a stored record, subsequently loads a
configuration that already contains guild Aʼs category, instead of the
unmodified compiled-in defaults. -/
theorem C10_config_not_isolated :
    set_on_default_copy DEFAULT_CONFIG "categories" "custom" leak_category
      = some (defaults_after_leak, defaults_after_leak)
    ∧ containsKey (categoriesOf
        ((load_config defaults_after_leak StoredFile.absent).1)) "custom" = true
    ∧ containsKey (categoriesOf DEFAULT_CONFIG) "custom" = false :=
  ⟨rfl, rfl, rfl⟩
